import Mathlib

/-!
Verification of the apr_tool repository core against its specification.

This file shallowly embeds the Python modules
`apr_tool/localization/sbfl.py`, `apr_tool/testing/validator.py`,
`apr_tool/testing/data_format.py`, `apr_tool/coverage/gcov_parser.py` and
the iteration loop of `apr_tool/testing/runner.py`, and proves the frozen
claims about them.

Modelling conventions:
* Python `float` values are modelled as real numbers; `float('inf')`
  (produced only by the D-star metric) is modelled with `WithTop Real`.
* Python `dict`s whose entries are traversed (the coverage and result
  dictionaries, always kept key-synchronized by `add_test_case`) are
  modelled as a list of entries.
* Python `bytes` buffers are modelled as a length together with a
  byte-valued function on positions (`ByteBuf`); IEEE-754 doubles are kept
  as their 64-bit patterns, which is faithful for the bit-for-bit
  round-trip claims.
-/

namespace AprTool

/-! ## Coverage matrix and SBFL localizer, from `localization/sbfl.py` -/

/-- One test case entry of the coverage matrix: the `coverage` dict maps the
name to the set of covered lines and the `results` dict maps it to the
pass/fail boolean; `add_test_case` keeps the two dicts key-synchronized, so
a single entry list models both. -/
structure TestEntry where
  name : String
  covered : List Nat
  passed : Bool

/-- Embeds `CoverageMatrix` from sbfl.py: coverage data at test-case level. -/
structure CoverageMatrix where
  tests : List TestEntry

/-- Embeds `CoverageMatrix.all_lines`: union of all lines covered by any test case. -/
def CoverageMatrix.all_lines (m : CoverageMatrix) : List Nat :=
  ((m.tests.map TestEntry.covered).flatten).dedup

/-- Embeds `CoverageMatrix.num_failing`: number of failing test cases. -/
def CoverageMatrix.num_failing (m : CoverageMatrix) : Nat :=
  m.tests.countP (fun t => !t.passed)

/-- Embeds `CoverageMatrix.num_passing`: number of passing test cases. -/
def CoverageMatrix.num_passing (m : CoverageMatrix) : Nat :=
  m.tests.countP (fun t => t.passed)

/-- Embeds `SuspiciousnessMetric` enum from sbfl.py. -/
inductive SuspiciousnessMetric where
  | ochiai
  | tarantula
  | dstar
  | jaccard
deriving DecidableEq

/-- Embeds `SBFLLocalizer` from sbfl.py: the coverage matrix, the optional source
line text (`source_lines.get(line, "")` modelled as a total function) and
the configured metric. -/
structure SBFLLocalizer where
  matrix : CoverageMatrix
  source_lines : Nat → String
  metric : SuspiciousnessMetric

/-- Precomputed `self.total_failed` from `SBFLLocalizer.__init__`. -/
def SBFLLocalizer.total_failed (L : SBFLLocalizer) : Nat :=
  L.matrix.num_failing

/-- Precomputed `self.total_passed` from `SBFLLocalizer.__init__`. -/
def SBFLLocalizer.total_passed (L : SBFLLocalizer) : Nat :=
  L.matrix.num_passing

/-- The four spectrum counts returned by `SBFLLocalizer._compute_counts`. -/
structure Counts where
  ef : Nat
  ep : Nat
  nf : Nat
  np : Nat
deriving DecidableEq

/-- Embeds `SBFLLocalizer._compute_counts`: walk the coverage dict, counting the
failing and passing test cases that cover `line`; `nf` and `np` are the
complements against the precomputed totals. -/
def SBFLLocalizer.computeCounts (L : SBFLLocalizer) (line : Nat) : Counts :=
  let ef := L.matrix.tests.countP (fun t => !t.passed && decide (line ∈ t.covered))
  let ep := L.matrix.tests.countP (fun t => t.passed && decide (line ∈ t.covered))
  ⟨ef, ep, L.total_failed - ef, L.total_passed - ep⟩

/-- Embeds `SBFLLocalizer.ochiai`: `ef / sqrt(total_failed * (ef + ep))`, with the
two guard branches of the source returning `0.0`. -/
noncomputable def SBFLLocalizer.ochiai (L : SBFLLocalizer) (line : Nat) : ℝ :=
  let c := L.computeCounts line
  if L.total_failed = 0 then 0
  else
    let denominator := Real.sqrt ((L.total_failed : ℝ) * ((c.ef : ℝ) + (c.ep : ℝ)))
    if denominator = 0 then 0
    else (c.ef : ℝ) / denominator

/-- Embeds `SBFLLocalizer.tarantula`, with all four guard branches of the source. -/
noncomputable def SBFLLocalizer.tarantula (L : SBFLLocalizer) (line : Nat) : ℝ :=
  let c := L.computeCounts line
  if L.total_failed = 0 then 0
  else
    let fail_ratio := (c.ef : ℝ) / (L.total_failed : ℝ)
    if L.total_passed = 0 then (if 0 < c.ef then 1 else 0)
    else
      let pass_ratio := (c.ep : ℝ) / (L.total_passed : ℝ)
      if fail_ratio + pass_ratio = 0 then 0
      else fail_ratio / (fail_ratio + pass_ratio)

/-- Embeds `SBFLLocalizer.dstar`: `ef ** star / (ep + nf)`; when the denominator is
zero the source returns `float('inf')` (modelled as `⊤`) for `ef > 0` and
`0.0` otherwise. -/
noncomputable def SBFLLocalizer.dstar (L : SBFLLocalizer) (line : Nat)
    (star : Nat := 2) : WithTop ℝ :=
  let c := L.computeCounts line
  let denominator := c.ep + c.nf
  if denominator = 0 then (if 0 < c.ef then ⊤ else ((0 : ℝ) : WithTop ℝ))
  else (((c.ef : ℝ) ^ star / (denominator : ℝ) : ℝ) : WithTop ℝ)

/-- Embeds `SBFLLocalizer.jaccard`: `ef / (ef + nf + ep)` with the zero guard. -/
noncomputable def SBFLLocalizer.jaccard (L : SBFLLocalizer) (line : Nat) : ℝ :=
  let c := L.computeCounts line
  if c.ef + c.nf + c.ep = 0 then 0
  else (c.ef : ℝ) / ((c.ef : ℝ) + (c.nf : ℝ) + (c.ep : ℝ))

/-- Embeds `SBFLLocalizer.compute_score`: dispatch on the configured metric
(`dstar` is called with its default `star = 2`). -/
noncomputable def SBFLLocalizer.compute_score (L : SBFLLocalizer) (line : Nat) :
    WithTop ℝ :=
  match L.metric with
  | .ochiai => ((L.ochiai line : ℝ) : WithTop ℝ)
  | .tarantula => ((L.tarantula line : ℝ) : WithTop ℝ)
  | .dstar => L.dstar line 2
  | .jaccard => ((L.jaccard line : ℝ) : WithTop ℝ)

/-- Embeds `SuspiciousnessScore` dataclass from sbfl.py. -/
structure SuspiciousnessScore where
  line : Nat
  score : WithTop ℝ
  source_text : String
  ef : Nat
  ep : Nat
  nf : Nat
  np : Nat

/-- The score record built for one line inside
`SBFLLocalizer.compute_all_scores`. -/
noncomputable def SBFLLocalizer.mkScore (L : SBFLLocalizer) (line : Nat) :
    SuspiciousnessScore :=
  let c := L.computeCounts line
  ⟨line, L.compute_score line, L.source_lines line, c.ef, c.ep, c.nf, c.np⟩

/-- Embeds `SBFLLocalizer.compute_all_scores`: one score per line of the union
`matrix.all_lines`. -/
noncomputable def SBFLLocalizer.compute_all_scores (L : SBFLLocalizer) :
    List SuspiciousnessScore :=
  L.matrix.all_lines.map L.mkScore

/-- The total order implemented by the sort key
`lambda s: (-s.score, s.line)` of `SBFLLocalizer.rank_lines`: higher score
first, ties by ascending line number. -/
def scoreKeyLE (a b : SuspiciousnessScore) : Prop :=
  b.score < a.score ∨ (a.score = b.score ∧ a.line ≤ b.line)

open Classical in
/-- Boolean form of `scoreKeyLE`, used as the comparator of the sort. -/
noncomputable def scoreKeyLEb (a b : SuspiciousnessScore) : Bool :=
  decide (scoreKeyLE a b)

/-- Embeds `SBFLLocalizer.rank_lines`: sort all scores by the key
`(-score, line)` and truncate to `top_n` when given.  `list.sort` with an
injective key (the line numbers of `all_lines` are distinct) is modelled by
`mergeSort` under the corresponding total order. -/
noncomputable def SBFLLocalizer.rank_lines (L : SBFLLocalizer)
    (top_n : Option Nat) : List SuspiciousnessScore :=
  let sorted := L.compute_all_scores.mergeSort scoreKeyLEb
  match top_n with
  | some n => sorted.take n
  | none => sorted

/-- Embeds `SBFLLocalizer.get_suspicious_lines`: the ranked list truncated to
`top_n`, filtered by `score >= threshold`, as `(line, score, text)` tuples. -/
noncomputable def SBFLLocalizer.get_suspicious_lines (L : SBFLLocalizer)
    (threshold : ℝ) (top_n : Option Nat) : List (Nat × WithTop ℝ × String) :=
  ((L.rank_lines top_n).filter
      (fun s => decide (((threshold : ℝ) : WithTop ℝ) ≤ s.score))).map
    (fun s => (s.line, s.score, s.source_text))

/-! ## Validator, from `testing/validator.py` -/

/-- Embeds `Vote` (semantic view used by the validator): index plus position and
velocity values; the doubles are modelled as real numbers. -/
structure Vote where
  idx : Int
  positions : List ℝ
  velocities : List ℝ

/-- Embeds `Vote.get_comparison_vector`:
`positions[:num_joints] + velocities[:num_joints]`. -/
def Vote.get_comparison_vector (v : Vote) (num_joints : Nat := 6) : List ℝ :=
  v.positions.take num_joints ++ v.velocities.take num_joints

/-- Embeds `sum(a * b for a, b in zip(vec1, vec2))`. -/
def dotList (v1 v2 : List ℝ) : ℝ :=
  (List.zipWith (fun a b => a * b) v1 v2).sum

/-- Embeds `math.sqrt(sum(x * x for x in vec))`. -/
noncomputable def normList (v : List ℝ) : ℝ :=
  Real.sqrt ((v.map (fun x => x * x)).sum)

open Classical in
/-- Embeds `cosine_distance` from validator.py: `1 - cosine_similarity` with the
similarity clamped to `[-1, 1]`; `0.0` when both norms are zero and `1.0`
when exactly one is. -/
noncomputable def cosine_distance (vec1 vec2 : List ℝ) : ℝ :=
  let dot := dotList vec1 vec2
  let norm1 := normList vec1
  let norm2 := normList vec2
  if norm1 = 0 ∧ norm2 = 0 then 0
  else if norm1 = 0 ∨ norm2 = 0 then 1
  else 1 - max (-1) (min 1 (dot / (norm1 * norm2)))

/-- The detail string of a `ValidationResult`, modelled structurally. -/
inductive VDetail where
  | empty
  | indexMismatch (controller oracle : Int)
  | passDistance (distance : ℝ)
  | distanceExceeded (distance epsilon : ℝ)
  | controllerStartupFailed

/-- Embeds `ValidationResult` dataclass from validator.py. -/
structure ValidationResult where
  passed : Bool
  detail : VDetail

open Classical in
/-- Embeds `validate_iteration` from validator.py: index equality check, then the
cosine-distance threshold test. -/
noncomputable def validate_iteration (controller_vote oracle_vote : Vote)
    (epsilon : ℝ := 0.5) (num_joints : Nat := 6) : ValidationResult :=
  if controller_vote.idx ≠ oracle_vote.idx then
    ⟨false, VDetail.indexMismatch controller_vote.idx oracle_vote.idx⟩
  else
    let distance := cosine_distance
      (controller_vote.get_comparison_vector num_joints)
      (oracle_vote.get_comparison_vector num_joints)
    if distance ≤ epsilon then ⟨true, VDetail.passDistance distance⟩
    else ⟨false, VDetail.distanceExceeded distance epsilon⟩

/-! ## Test runner iteration loop, from `testing/runner.py`

The runner performs IO: it starts the controller process and drives one
iteration per round trip of the mmap/flag protocol.  The loop of
`TestRunner.run_test_case` is embedded with the per-iteration outcome
abstracted as an oracle function `runIter : Nat → ValidationResult`
(the validation result that `run_iteration` would produce for iteration
`i`), and the startup success of `_start_controller` as a boolean. -/

/-- Embeds `IterationResult` dataclass from runner.py (the wall-clock duration
field is not modelled). -/
structure IterationResult where
  iteration : Nat
  validation : ValidationResult

/-- Embeds `IterationResult.passed`. -/
def IterationResult.passed (r : IterationResult) : Bool :=
  r.validation.passed

/-- Embeds `TestCaseResult` dataclass from runner.py (name and duration are not
modelled; the failure reason keeps the structural detail). -/
structure TestCaseResult where
  passed : Bool
  iterations_run : Nat
  iterations_total : Nat
  failed_at_iteration : Option Nat
  failure_reason : Option VDetail
  iteration_results : List IterationResult

/-- The `for i in range(1, num_iterations + 1)` loop of
`TestRunner.run_test_case`, with early return on the first failing
iteration: from absolute iteration `i` with `rem` iterations remaining,
return the recorded iteration results and the failing iteration, if any. -/
def runIterations (runIter : Nat → ValidationResult) (i : Nat) :
    Nat → List IterationResult × Option (Nat × ValidationResult)
  | 0 => ([], none)
  | rem + 1 =>
    let r : IterationResult := ⟨i, runIter i⟩
    if r.passed then
      let rest := runIterations runIter (i + 1) rem
      (r :: rest.1, rest.2)
    else ([r], some (i, r.validation))

/-- Embeds `TestRunner.run_test_case`: startup check, then the iteration loop;
a failure at iteration `i` yields a failed result recording `i` and the
failing validation's detail, otherwise all `num_iterations` iterations are
reported passed. -/
def run_test_case (startOk : Bool) (runIter : Nat → ValidationResult)
    (num_iterations : Nat) : TestCaseResult :=
  if !startOk then
    ⟨false, 0, num_iterations, some 0, some VDetail.controllerStartupFailed, []⟩
  else
    let out := runIterations runIter 1 num_iterations
    match out.2 with
    | some iv => ⟨false, iv.1, num_iterations, some iv.1, some iv.2.detail, out.1⟩
    | none => ⟨true, num_iterations, num_iterations, none, none, out.1⟩

/-! ## Binary codec, from `testing/data_format.py`

A Python `bytes` buffer is modelled as its length together with a function
giving the byte at each position (reads apply `% 256`, so only byte values
matter).  `struct.unpack` fields: `i`/`I` are 4-byte little-endian
(signed/unsigned) integers, `Q` is an 8-byte unsigned integer, and `d` is
an IEEE-754 double kept as its raw 64-bit pattern — faithful for the
bit-for-bit round-trip claim. -/

/-- A byte buffer: length plus byte-at-position function. -/
structure ByteBuf where
  size : Nat
  byteAt : Nat → Nat

/-- Little-endian read of `k` bytes from the byte stream `f`. -/
def readLE (f : Nat → Nat) : Nat → Nat
  | 0 => 0
  | k + 1 => f 0 % 256 + 256 * readLE (fun j => f (j + 1)) k

/-- Little-endian read of `k` bytes at offset `off` of a buffer. -/
def ByteBuf.readLEat (b : ByteBuf) (off k : Nat) : Nat :=
  readLE (fun j => b.byteAt (off + j)) k

/-- Byte `j` of the little-endian encoding of `n`. -/
def byteOf (n j : Nat) : Nat :=
  n / 256 ^ j % 256

/-- Two's-complement reinterpretation of an unsigned 32-bit value, as done
by `struct.unpack` for format `i`. -/
def toSigned32 (n : Nat) : Int :=
  if n < 2 ^ 31 then (n : Int) else (n : Int) - 2 ^ 32

/-- The unsigned 32-bit encoding of a signed int32, as produced by
`struct.pack` for format `i`. -/
def intEnc32 (z : Int) : Nat :=
  (z % 2 ^ 32).toNat

/-- Embeds `POINT_SIZE = struct.calcsize('Q100dQ100dQ100dQ100diI')`: four
`(8 + 100 * 8)`-byte blocks, then a 4-byte signed and a 4-byte unsigned
integer. -/
def POINT_SIZE : Nat := 4 * (8 + 100 * 8) + 4 + 4

/-- Embeds `VOTE_SIZE = struct.calcsize('i' + POINT_FORMAT)`: a 4-byte index plus
4 alignment padding bytes (native mode aligns the following 8-byte `Q`
field), then the point. -/
def VOTE_SIZE : Nat := 4 + 4 + POINT_SIZE

/-- The parsed `Vote` of data_format.py at the wire level: index plus the
100 position and 100 velocity doubles, kept as 64-bit patterns. -/
structure VoteBits where
  idx : Int
  positions : List Nat
  velocities : List Nat
deriving DecidableEq

/-- Embeds `parse_vote`: `struct.unpack(VOTE_FORMAT, data[:VOTE_SIZE])` fails when
fewer than `VOTE_SIZE` bytes are available; the index is unpacked field 0,
the positions are fields `2:102` (offset 16) and the velocities fields
`103:203` (offset 824). -/
def parse_vote (b : ByteBuf) : Option VoteBits :=
  if b.size < VOTE_SIZE then none
  else some
    { idx := toSigned32 (b.readLEat 0 4)
      positions := (List.range 100).map (fun l => b.readLEat (16 + 8 * l) 8)
      velocities := (List.range 100).map (fun l => b.readLEat (824 + 8 * l) 8) }

/-- The full field list of the `Vote` wire layout (`'iQ100dQ100dQ100dQ100diI'`
with 4 pad bytes after the index), used to state the pack/parse round trip.
Doubles are 64-bit patterns. -/
structure VoteWire where
  idx : Int
  positions_length : Nat
  positions : List Nat
  velocities_length : Nat
  velocities : List Nat
  accelerations_length : Nat
  accelerations : List Nat
  effort_length : Nat
  effort : List Nat
  time_from_start_sec : Int
  time_from_start_nsec : Nat

/-- Embeds `struct.pack` of the `Vote` layout: the little-endian bytes of each
field at its wire offset (index at 0, 4 pad bytes, then the four
`length + 100 slots` blocks, then the two 4-byte timestamp fields). -/
def packVote (w : VoteWire) : ByteBuf where
  size := VOTE_SIZE
  byteAt i :=
    if i < 4 then byteOf (intEnc32 w.idx) i
    else if i < 8 then 0
    else if i < 16 then byteOf w.positions_length (i - 8)
    else if i < 816 then byteOf (w.positions.getD ((i - 16) / 8) 0) ((i - 16) % 8)
    else if i < 824 then byteOf w.velocities_length (i - 816)
    else if i < 1624 then byteOf (w.velocities.getD ((i - 824) / 8) 0) ((i - 824) % 8)
    else if i < 1632 then byteOf w.accelerations_length (i - 1624)
    else if i < 2432 then byteOf (w.accelerations.getD ((i - 1632) / 8) 0) ((i - 1632) % 8)
    else if i < 2440 then byteOf w.effort_length (i - 2432)
    else if i < 3240 then byteOf (w.effort.getD ((i - 2440) / 8) 0) ((i - 2440) % 8)
    else if i < 3244 then byteOf (intEnc32 w.time_from_start_sec) (i - 3240)
    else if i < 3248 then byteOf w.time_from_start_nsec (i - 3244)
    else 0

/-- Embeds `TrajectoryPoint` dataclass from data_format.py (doubles as 64-bit
patterns). -/
structure TrajectoryPoint where
  positions_length : Nat
  positions : List Nat
  velocities_length : Nat
  velocities : List Nat
  accelerations_length : Nat
  accelerations : List Nat
  effort_length : Nat
  effort : List Nat
  time_from_start_sec : Int
  time_from_start_nsec : Nat

/-- Embeds `_parse_point`: `struct.unpack_from(POINT_FORMAT, data, offset)` fails
when fewer than `POINT_SIZE` bytes remain; each array keeps the first
`min(declared_length, 100)` of its 100 reserved slots. -/
def parsePoint (b : ByteBuf) (off : Nat) : Option TrajectoryPoint :=
  if off + POINT_SIZE ≤ b.size then
    let pos_len := b.readLEat off 8
    let vel_len := b.readLEat (off + 808) 8
    let acc_len := b.readLEat (off + 1616) 8
    let eff_len := b.readLEat (off + 2424) 8
    some
      { positions_length := pos_len
        positions :=
          ((List.range 100).map (fun l => b.readLEat (off + 8 + 8 * l) 8)).take
            (min pos_len 100)
        velocities_length := vel_len
        velocities :=
          ((List.range 100).map (fun l => b.readLEat (off + 816 + 8 * l) 8)).take
            (min vel_len 100)
        accelerations_length := acc_len
        accelerations :=
          ((List.range 100).map (fun l => b.readLEat (off + 1624 + 8 * l) 8)).take
            (min acc_len 100)
        effort_length := eff_len
        effort :=
          ((List.range 100).map (fun l => b.readLEat (off + 2432 + 8 * l) 8)).take
            (min eff_len 100)
        time_from_start_sec := toSigned32 (b.readLEat (off + 3232) 4)
        time_from_start_nsec := b.readLEat (off + 3236) 4 }
  else none

/-- Embeds `State` dataclass from data_format.py (joint names kept as their byte
sequences up to the first NUL). -/
structure State where
  idx : Int
  cur_time_seconds : Int
  joint_names : List (List Nat)
  points_length : Nat
  points : List TrajectoryPoint

/-- Embeds `struct.unpack_from` of a single unsigned field: fails when fewer than
`k` bytes remain past the offset. -/
def unpackFromU (b : ByteBuf) (off k : Nat) : Option Nat :=
  if off + k ≤ b.size then some (b.readLEat off k) else none

/-- The 256-byte joint-name slot `j` (a Python slice, which clamps at the
buffer end): its bytes up to the first NUL. -/
def jointNameBytes (b : ByteBuf) (j : Nat) : List Nat :=
  (((List.range 256).filterMap (fun k =>
      if 16 + 256 * j + k < b.size then some (b.byteAt (16 + 256 * j + k) % 256)
      else none)).takeWhile (fun c => c ≠ 0))

/-- The loop parsing trajectory points `p, p+1, ...` (`count` of them) at
`2584 + p * POINT_SIZE`. -/
def parsePointsFrom (b : ByteBuf) (p : Nat) : Nat → Option (List TrajectoryPoint)
  | 0 => some []
  | count + 1 => do
    let pt ← parsePoint b (2584 + p * POINT_SIZE)
    let rest ← parsePointsFrom b (p + 1) count
    pure (pt :: rest)

/-- Embeds `parse_state` from data_format.py: manual-offset reads — the 4-byte
index (4 pad bytes follow), the 8-byte joint-name count at 8 (read, then
ignored: all 10 fixed slots are scanned and empty names dropped), the
8-byte point count at 2576 clamped to 256, that many point blocks from
2584, and the trailing 4-byte `cur_time_seconds` after the full 256-point
reserved array. -/
def parse_state (b : ByteBuf) : Option State := do
  let idxRaw ← unpackFromU b 0 4
  let _joint_names_length ← unpackFromU b 8 8
  let joint_names := ((List.range 10).map (jointNameBytes b)).filter
    (fun nm => nm ≠ [])
  let points_length ← unpackFromU b 2576 8
  let num_points := min points_length 256
  let points ← parsePointsFrom b 0 num_points
  let curTimeRaw ← unpackFromU b (2584 + 256 * POINT_SIZE) 4
  pure
    { idx := toSigned32 idxRaw
      cur_time_seconds := toSigned32 curTimeRaw
      joint_names := joint_names
      points_length := points_length
      points := points }

/-- The least buffer size on which every read of `parse_state` succeeds:
up to and including the trailing `cur_time_seconds` field. -/
def STATE_REQUIRED_SIZE : Nat := 2584 + 256 * POINT_SIZE + 4

/-! ## Gcov report parsing, from `coverage/gcov_parser.py`

A report is a list of text lines (each without its trailing newline, which
the regex's `$` anchor excludes from the captured source text).  The
pattern `^\s*([0-9]+|-|#####|=====|\*+):\s*(\d+):(.*)$` is embedded as a
deterministic matcher: each marker alternative can only be followed by a
colon in a successful match, so maximal-run tokenization is equivalent to
the regex's backtracking. -/

/-- The matched marker alternative of the gcov line pattern. -/
inductive Marker where
  | count (n : Nat)
  | dash
  | hashes
  | equals
  | stars (n : Nat)
deriving DecidableEq

/-- The ASCII characters matched by the regex class `\s`. -/
def wsChar (c : Char) : Bool :=
  c = ' ' || c = '\t' || c = '\n' || c = '\r' || c = '\x0b' || c = '\x0c'

/-- Numeric value of a digit run, as computed by Python `int`. -/
def natOfDigits (ds : List Char) : Nat :=
  ds.foldl (fun n c => 10 * n + (c.toNat - 48)) 0

/-- Match the marker alternative `[0-9]+|-|#####|=====|\*+` at the head of
the line, returning the marker and the rest of the line. -/
def matchMarker (l : List Char) : Option (Marker × List Char) :=
  match l with
  | [] => none
  | c :: rest =>
    if c.isDigit then
      let ds := l.takeWhile Char.isDigit
      some (Marker.count (natOfDigits ds), l.dropWhile Char.isDigit)
    else if c = '-' then some (Marker.dash, rest)
    else if c = '#' then
      match l with
      | '#' :: '#' :: '#' :: '#' :: '#' :: rest5 => some (Marker.hashes, rest5)
      | _ => none
    else if c = '=' then
      match l with
      | '=' :: '=' :: '=' :: '=' :: '=' :: rest5 => some (Marker.equals, rest5)
      | _ => none
    else if c = '*' then
      let ss := l.takeWhile (fun d => d = '*')
      some (Marker.stars ss.length, l.dropWhile (fun d => d = '*'))
    else none

/-- Match `GcovParser.LINE_PATTERN` against a whole line: leading
whitespace, a marker, a colon, whitespace, a nonempty digit run (the line
number), a colon, and the rest as source text. -/
def matchLine (raw : List Char) : Option (Marker × Nat × List Char) := do
  let (marker, r1) ← matchMarker (raw.dropWhile wsChar)
  match r1 with
  | ':' :: r2 =>
    let r3 := r2.dropWhile wsChar
    let ds := r3.takeWhile Char.isDigit
    if ds = [] then none
    else
      match r3.dropWhile Char.isDigit with
      | ':' :: src => some (marker, natOfDigits ds, src)
      | _ => none
  | _ => none

/-- Embeds `GcovLine` dataclass from gcov_parser.py. -/
structure GcovLine where
  line_number : Nat
  execution_count : Option Nat
  source_text : List Char
  is_executable : Bool
deriving DecidableEq

/-- Embeds `GcovLine.was_executed`: a recorded count that is positive. -/
def GcovLine.was_executed (g : GcovLine) : Bool :=
  match g.execution_count with
  | some n => 0 < n
  | none => false

/-- Classification of a matched marker into `(execution_count,
is_executable)`, as in `GcovParser._parse_line` (a digit run always parses,
so the `ValueError` branch is unreachable). -/
def markerClass (m : Marker) : Option Nat × Bool :=
  match m with
  | Marker.count n => (some n, true)
  | Marker.dash => (none, false)
  | Marker.hashes => (some 0, true)
  | Marker.equals => (some 0, true)
  | Marker.stars _ => (some 0, true)

/-- Embeds `GcovParser._parse_line`: regex match, discard line number 0, then
classify the marker. -/
def parseGcovLine (raw : List Char) : Option GcovLine :=
  match matchLine raw with
  | none => none
  | some (marker, line_number, source_text) =>
    if line_number = 0 then none
    else
      let mc := markerClass marker
      some ⟨line_number, mc.1, source_text, mc.2⟩

/-- Embeds `GcovParser.parse_file` over the report's lines. -/
def parseGcovReport (report : List (List Char)) : List GcovLine :=
  report.filterMap parseGcovLine

/-- Embeds `GcovParser.get_executed_lines`: the set of line numbers executed at
least once. -/
def get_executed_lines (report : List (List Char)) : Finset Nat :=
  (((parseGcovReport report).filter GcovLine.was_executed).map
    GcovLine.line_number).toFinset

/-- Embeds `GcovParser.get_executable_lines`: the set of executable line numbers. -/
def get_executable_lines (report : List (List Char)) : Finset Nat :=
  (((parseGcovReport report).filter GcovLine.is_executable).map
    GcovLine.line_number).toFinset

/-- Embeds `GcovParser.get_not_executed_lines`: executable but not executed. -/
def get_not_executed_lines (report : List (List Char)) : Finset Nat :=
  (((parseGcovReport report).filter
      (fun g => g.is_executable && !g.was_executed)).map
    GcovLine.line_number).toFinset

/-! ## Helper lemmas about the SBFL counts -/

theorem computeCounts_ef_le (L : SBFLLocalizer) (line : Nat) :
    (L.computeCounts line).ef ≤ L.total_failed := by
  apply List.countP_mono_left
  intro t _ h
  simp only [Bool.and_eq_true] at h
  exact h.1

theorem computeCounts_nf_eq (L : SBFLLocalizer) (line : Nat) :
    (L.computeCounts line).nf = L.total_failed - (L.computeCounts line).ef := rfl

theorem computeCounts_np_eq (L : SBFLLocalizer) (line : Nat) :
    (L.computeCounts line).np = L.total_passed - (L.computeCounts line).ep := rfl

/-! ## Claim theorems for the SBFL metrics -/

/-- Claim C6: for every coverage matrix and line, the Ochiai score lies in
`[0, 1]` whenever the number of failing test cases is positive; it is
exactly `0` when there are no failing test cases, and also whenever the
denominator `sqrt(total_failing * (ef + ep))` is zero. -/
theorem ochiai_range (L : SBFLLocalizer) (line : Nat) :
    (0 < L.matrix.num_failing → 0 ≤ L.ochiai line ∧ L.ochiai line ≤ 1)
    ∧ (L.matrix.num_failing = 0 → L.ochiai line = 0)
    ∧ (Real.sqrt ((L.matrix.num_failing : ℝ) *
        (((L.computeCounts line).ef : ℝ) + ((L.computeCounts line).ep : ℝ))) = 0 →
      L.ochiai line = 0) := by
  have htf : L.total_failed = L.matrix.num_failing := rfl
  refine ⟨?_, ?_, ?_⟩
  · intro hpos
    rw [SBFLLocalizer.ochiai]
    have h0 : ¬ L.total_failed = 0 := by omega
    rw [if_neg h0]
    set c := L.computeCounts line with hc
    set d := Real.sqrt ((L.total_failed : ℝ) * ((c.ef : ℝ) + (c.ep : ℝ))) with hd
    by_cases hdz : d = 0
    · rw [if_pos hdz]; norm_num
    · rw [if_neg hdz]
      have hd0 : 0 ≤ d := Real.sqrt_nonneg _
      have hdpos : 0 < d := lt_of_le_of_ne hd0 (Ne.symm hdz)
      constructor
      · positivity
      · rw [div_le_one hdpos, hd]
        have hef : c.ef ≤ L.total_failed := computeCounts_ef_le L line
        have h1 : ((c.ef : ℝ)) ^ 2 ≤ (L.total_failed : ℝ) * ((c.ef : ℝ) + (c.ep : ℝ)) := by
          have e1 : ((c.ef : ℝ)) ≤ (L.total_failed : ℝ) := by exact_mod_cast hef
          have e2 : ((c.ef : ℝ)) ≤ (c.ef : ℝ) + (c.ep : ℝ) :=
            le_add_of_nonneg_right (by positivity)
          calc ((c.ef : ℝ)) ^ 2 = (c.ef : ℝ) * (c.ef : ℝ) := by ring
            _ ≤ (L.total_failed : ℝ) * ((c.ef : ℝ) + (c.ep : ℝ)) :=
              mul_le_mul e1 e2 (by positivity) (by positivity)
        exact (Real.le_sqrt (by positivity) (by positivity)).mpr h1
  · intro h0
    rw [SBFLLocalizer.ochiai, if_pos (htf.trans h0)]
  · intro hden
    rw [SBFLLocalizer.ochiai]
    by_cases h0 : L.total_failed = 0
    · rw [if_pos h0]
    · rw [if_neg h0, if_pos (by rw [htf]; exact hden)]

/-- Witness for C6 at a concrete matrix with one failing test case. -/
theorem ochiai_range_witness :
    0 < (CoverageMatrix.mk [⟨"n1", [1, 2], false⟩, ⟨"p1", [1], true⟩]).num_failing
    ∧ 0 ≤ (SBFLLocalizer.mk ⟨[⟨"n1", [1, 2], false⟩, ⟨"p1", [1], true⟩]⟩
        (fun _ => "") .ochiai).ochiai 1
    ∧ (SBFLLocalizer.mk ⟨[⟨"n1", [1, 2], false⟩, ⟨"p1", [1], true⟩]⟩
        (fun _ => "") .ochiai).ochiai 1 ≤ 1 := by
  have h := (ochiai_range (SBFLLocalizer.mk ⟨[⟨"n1", [1, 2], false⟩, ⟨"p1", [1], true⟩]⟩
    (fun _ => "") .ochiai) 1).1 (by decide)
  exact ⟨by decide, h.1, h.2⟩

/-- Claim C7: the D-star (star = 2) score is `ef^2 / (ep + nf)` and finite
whenever `ep + nf > 0`; when `ep + nf = 0` it is `+∞` if `ef > 0` and `0.0`
if `ef = 0`. -/
theorem dstar_spec (L : SBFLLocalizer) (line : Nat) :
    (0 < (L.computeCounts line).ep + (L.computeCounts line).nf →
      L.dstar line 2 =
        ((((L.computeCounts line).ef : ℝ) ^ 2 /
          (((L.computeCounts line).ep + (L.computeCounts line).nf : Nat) : ℝ) : ℝ) :
          WithTop ℝ)
      ∧ L.dstar line 2 ≠ ⊤)
    ∧ ((L.computeCounts line).ep + (L.computeCounts line).nf = 0 →
        0 < (L.computeCounts line).ef → L.dstar line 2 = ⊤)
    ∧ ((L.computeCounts line).ep + (L.computeCounts line).nf = 0 →
        (L.computeCounts line).ef = 0 → L.dstar line 2 = ((0 : ℝ) : WithTop ℝ)) := by
  refine ⟨?_, ?_, ?_⟩
  · intro hpos
    rw [SBFLLocalizer.dstar, if_neg (by omega)]
    exact ⟨rfl, WithTop.coe_ne_top⟩
  · intro hz hef
    rw [SBFLLocalizer.dstar, if_pos hz, if_pos hef]
  · intro hz hef
    rw [SBFLLocalizer.dstar, if_pos hz, if_neg (by omega)]

/-- Witness for C7 at concrete matrices realizing both the finite and the
infinite branch. -/
theorem dstar_spec_witness :
    ((SBFLLocalizer.mk ⟨[⟨"p1", [1], true⟩]⟩ (fun _ => "") .dstar).dstar 1 2 ≠ ⊤)
    ∧ (SBFLLocalizer.mk ⟨[⟨"n1", [1], false⟩]⟩ (fun _ => "") .dstar).dstar 1 2 = ⊤ := by
  refine ⟨((dstar_spec (SBFLLocalizer.mk ⟨[⟨"p1", [1], true⟩]⟩ (fun _ => "") .dstar) 1).1
    (by decide)).2, (dstar_spec (SBFLLocalizer.mk ⟨[⟨"n1", [1], false⟩]⟩
    (fun _ => "") .dstar) 1).2.1 (by decide) (by decide)⟩

/-- Claim C5: for a line with `ef = 2`, `ep = 1` in a matrix with exactly 2
failing and 2 passing test cases (so `nf = 0`, `np = 1`), the four metrics
give Ochiai `2 / sqrt(2 * 3)`, Tarantula `1.0 / (1.0 + 0.5)`, D-star
(star 2) `4.0` and Jaccard `2 / 3`. -/
theorem metrics_example_values (L : SBFLLocalizer) (line : Nat)
    (hf : L.matrix.num_failing = 2) (hp : L.matrix.num_passing = 2)
    (hef : (L.computeCounts line).ef = 2) (hep : (L.computeCounts line).ep = 1) :
    L.ochiai line = 2 / Real.sqrt (2 * 3)
    ∧ L.tarantula line = 1 / (1 + 0.5)
    ∧ L.dstar line 2 = ((4 : ℝ) : WithTop ℝ)
    ∧ L.jaccard line = 2 / 3 := by
  have htf : L.total_failed = 2 := hf
  have htp : L.total_passed = 2 := hp
  have hnf : (L.computeCounts line).nf = 0 := by
    rw [computeCounts_nf_eq, hef, htf]
  refine ⟨?_, ?_, ?_, ?_⟩
  · rw [SBFLLocalizer.ochiai]
    rw [if_neg (by omega)]
    rw [htf, hef, hep]
    rw [if_neg (Real.sqrt_ne_zero'.mpr (by norm_num))]
    norm_num
  · rw [SBFLLocalizer.tarantula, if_neg (by omega), if_neg (by omega)]
    rw [htf, htp, hef, hep]
    rw [if_neg (by norm_num)]
    norm_num
  · rw [SBFLLocalizer.dstar, if_neg (by omega)]
    rw [hef, hep, hnf]
    norm_num
  · rw [SBFLLocalizer.jaccard, if_neg (by omega)]
    rw [hef, hep, hnf]
    norm_num

/-- Witness for C5 at the concrete matrix with failing tests `n1`, `n2`
(covering line 1) and passing tests `p1` (covering line 1) and `p2` (not). -/
theorem metrics_example_values_witness :
    (SBFLLocalizer.mk
      ⟨[⟨"n1", [1], false⟩, ⟨"n2", [1], false⟩, ⟨"p1", [1], true⟩, ⟨"p2", [2], true⟩]⟩
      (fun _ => "") .ochiai).ochiai 1 = 2 / Real.sqrt (2 * 3)
    ∧ (SBFLLocalizer.mk
      ⟨[⟨"n1", [1], false⟩, ⟨"n2", [1], false⟩, ⟨"p1", [1], true⟩, ⟨"p2", [2], true⟩]⟩
      (fun _ => "") .ochiai).tarantula 1 = 1 / (1 + 0.5)
    ∧ (SBFLLocalizer.mk
      ⟨[⟨"n1", [1], false⟩, ⟨"n2", [1], false⟩, ⟨"p1", [1], true⟩, ⟨"p2", [2], true⟩]⟩
      (fun _ => "") .ochiai).dstar 1 2 = ((4 : ℝ) : WithTop ℝ)
    ∧ (SBFLLocalizer.mk
      ⟨[⟨"n1", [1], false⟩, ⟨"n2", [1], false⟩, ⟨"p1", [1], true⟩, ⟨"p2", [2], true⟩]⟩
      (fun _ => "") .ochiai).jaccard 1 = 2 / 3 :=
  metrics_example_values _ 1 (by decide) (by decide) (by decide) (by decide)

/-! ## Helper lemmas for the validator -/

theorem sumSq_nonneg (v : List ℝ) : 0 ≤ (v.map (fun x => x * x)).sum := by
  apply List.sum_nonneg
  intro x hx
  rcases List.mem_map.mp hx with ⟨y, _, rfl⟩
  exact mul_self_nonneg y

theorem sumSq_eq_zero_iff (v : List ℝ) :
    (v.map (fun x => x * x)).sum = 0 ↔ ∀ x ∈ v, x = 0 := by
  induction v with
  | nil => simp
  | cons a tl ih =>
    simp only [List.map_cons, List.sum_cons, List.mem_cons]
    constructor
    · intro h
      have h1 : 0 ≤ a * a := mul_self_nonneg a
      have h2 : 0 ≤ (tl.map (fun x => x * x)).sum := sumSq_nonneg tl
      have ha : a * a = 0 := by linarith
      have htl : (tl.map (fun x => x * x)).sum = 0 := by linarith
      intro x hx
      rcases hx with rfl | hx
      · exact mul_self_eq_zero.mp ha
      · exact ih.mp htl x hx
    · intro h
      have ha : a = 0 := h a (Or.inl rfl)
      have htl : (tl.map (fun x => x * x)).sum = 0 := ih.mpr (fun x hx => h x (Or.inr hx))
      rw [ha, htl]
      ring

theorem normList_eq_zero_iff (v : List ℝ) : normList v = 0 ↔ ∀ x ∈ v, x = 0 := by
  rw [normList, Real.sqrt_eq_zero (sumSq_nonneg v), sumSq_eq_zero_iff]

/-! ## Claim theorem for validate_iteration -/

/-- Claim C2: `validate_iteration` fails with an index-mismatch reason
whenever the two `idx` fields differ; otherwise it passes iff the cosine
distance between the comparison vectors `positions[0:6] + velocities[0:6]`
is at most `epsilon`; two all-zero comparison vectors have distance `0`,
and exactly one all-zero comparison vector gives distance `1`. -/
theorem validate_iteration_spec (c o : Vote) (eps : ℝ) :
    (c.idx ≠ o.idx →
      validate_iteration c o eps 6 =
        ⟨false, VDetail.indexMismatch c.idx o.idx⟩)
    ∧ (c.idx = o.idx →
      ((validate_iteration c o eps 6).passed = true ↔
        cosine_distance (c.get_comparison_vector 6) (o.get_comparison_vector 6) ≤ eps))
    ∧ ((∀ x ∈ c.get_comparison_vector 6, x = 0) →
        (∀ x ∈ o.get_comparison_vector 6, x = 0) →
      cosine_distance (c.get_comparison_vector 6) (o.get_comparison_vector 6) = 0)
    ∧ ((∀ x ∈ c.get_comparison_vector 6, x = 0) →
        (∃ x ∈ o.get_comparison_vector 6, x ≠ 0) →
      cosine_distance (c.get_comparison_vector 6) (o.get_comparison_vector 6) = 1)
    ∧ ((∃ x ∈ c.get_comparison_vector 6, x ≠ 0) →
        (∀ x ∈ o.get_comparison_vector 6, x = 0) →
      cosine_distance (c.get_comparison_vector 6) (o.get_comparison_vector 6) = 1) := by
  refine ⟨?_, ?_, ?_, ?_, ?_⟩
  · intro hne
    rw [validate_iteration, if_pos hne]
  · intro heq
    rw [validate_iteration, if_neg (by simp [heq])]
    by_cases hd : cosine_distance (c.get_comparison_vector 6)
        (o.get_comparison_vector 6) ≤ eps
    · rw [if_pos hd]
      simpa using hd
    · rw [if_neg hd]
      simpa using hd
  · intro hc ho
    rw [cosine_distance]
    rw [if_pos ⟨(normList_eq_zero_iff _).mpr hc, (normList_eq_zero_iff _).mpr ho⟩]
  · intro hc ho
    have h1 : normList (c.get_comparison_vector 6) = 0 := (normList_eq_zero_iff _).mpr hc
    have h2 : ¬ normList (o.get_comparison_vector 6) = 0 := by
      rw [normList_eq_zero_iff]
      rcases ho with ⟨x, hx, hxne⟩
      exact fun hall => hxne (hall x hx)
    rw [cosine_distance]
    rw [if_neg (by exact fun h => h2 h.2), if_pos (Or.inl h1)]
  · intro hc ho
    have h2 : normList (o.get_comparison_vector 6) = 0 := (normList_eq_zero_iff _).mpr ho
    have h1 : ¬ normList (c.get_comparison_vector 6) = 0 := by
      rw [normList_eq_zero_iff]
      rcases hc with ⟨x, hx, hxne⟩
      exact fun hall => hxne (hall x hx)
    rw [cosine_distance]
    rw [if_neg (by exact fun h => h1 h.1), if_pos (Or.inr h2)]

/-- Witness for C2: an index mismatch fails, two zero votes are at distance
`0`, and a zero vote against a nonzero one is at distance `1`. -/
theorem validate_iteration_spec_witness :
    validate_iteration ⟨0, [1], [0]⟩ ⟨1, [1], [0]⟩ (1 / 2) 6 =
      ⟨false, VDetail.indexMismatch 0 1⟩
    ∧ cosine_distance ((⟨0, [0], [0]⟩ : Vote).get_comparison_vector 6)
        ((⟨0, [0], [0]⟩ : Vote).get_comparison_vector 6) = 0
    ∧ cosine_distance ((⟨0, [0], [0]⟩ : Vote).get_comparison_vector 6)
        ((⟨0, [1], [0]⟩ : Vote).get_comparison_vector 6) = 1 := by
  refine ⟨(validate_iteration_spec ⟨0, [1], [0]⟩ ⟨1, [1], [0]⟩ (1 / 2)).1 (by decide),
    (validate_iteration_spec ⟨0, [0], [0]⟩ ⟨0, [0], [0]⟩ (1 / 2)).2.2.1 ?_ ?_,
    (validate_iteration_spec ⟨0, [0], [0]⟩ ⟨0, [1], [0]⟩ (1 / 2)).2.2.2.1 ?_ ?_⟩
  · intro x hx
    simpa [Vote.get_comparison_vector] using hx
  · intro x hx
    simpa [Vote.get_comparison_vector] using hx
  · intro x hx
    simpa [Vote.get_comparison_vector] using hx
  · refine ⟨1, ?_, one_ne_zero⟩
    simp [Vote.get_comparison_vector]

/-! ## Claim theorem for the runner's iteration loop -/

/-- Claim C9: with iteration outcomes pass, pass, fail, `run_test_case`
returns a failed result with `iterations_run = 3`,
`failed_at_iteration = 3` and exactly the three recorded iteration
results, attempting no iteration past the first failing one even when
`num_iterations` is larger. -/
theorem run_test_case_stops_at_failure (runIter : Nat → ValidationResult)
    (N : Nat) (hN : 3 ≤ N)
    (h1 : (runIter 1).passed = true) (h2 : (runIter 2).passed = true)
    (h3 : (runIter 3).passed = false) :
    run_test_case true runIter N =
      ⟨false, 3, N, some 3, some (runIter 3).detail,
        [⟨1, runIter 1⟩, ⟨2, runIter 2⟩, ⟨3, runIter 3⟩]⟩ := by
  obtain ⟨rem, rfl⟩ : ∃ rem, N = rem + 3 := ⟨N - 3, by omega⟩
  have hloop : runIterations runIter 1 (rem + 3) =
      ([⟨1, runIter 1⟩, ⟨2, runIter 2⟩, ⟨3, runIter 3⟩],
        some (3, runIter 3)) := by
    show runIterations runIter 1 ((rem + 2) + 1) = _
    rw [runIterations]
    simp only [IterationResult.passed, h1, if_pos]
    show (_ :: (runIterations runIter 2 ((rem + 1) + 1)).1, _) = _
    rw [runIterations]
    simp only [IterationResult.passed, h2, if_pos]
    show (_ :: _ :: (runIterations runIter 3 (rem + 1)).1, _) = _
    rw [runIterations]
    simp only [IterationResult.passed, h3]
    simp
  rw [run_test_case]
  simp only [Bool.not_true, Bool.false_eq_true, if_false, hloop]

/-- Witness for C9: a concrete outcome oracle passing iterations 1 and 2
and failing iteration 3, with five input files available. -/
theorem run_test_case_stops_at_failure_witness :
    run_test_case true
      (fun i => if i ≤ 2 then ⟨true, VDetail.empty⟩ else ⟨false, VDetail.empty⟩) 5 =
      ⟨false, 3, 5, some 3, some VDetail.empty,
        [⟨1, ⟨true, VDetail.empty⟩⟩, ⟨2, ⟨true, VDetail.empty⟩⟩,
          ⟨3, ⟨false, VDetail.empty⟩⟩]⟩ := by
  have h := run_test_case_stops_at_failure
    (fun i => if i ≤ 2 then ⟨true, VDetail.empty⟩ else ⟨false, VDetail.empty⟩) 5
    (by omega) (by rfl) (by rfl) (by rfl)
  simpa using h

/-! ## Helper lemmas for the gcov parser -/

theorem parseGcovLine_of_matchLine {raw : List Char} {m : Marker} {n : Nat}
    {src : List Char} (h : matchLine raw = some (m, n, src)) (hn : n ≠ 0) :
    parseGcovLine raw = some ⟨n, (markerClass m).1, src, (markerClass m).2⟩ := by
  rw [parseGcovLine, h]
  simp [hn]

theorem mem_parseGcovReport {report : List (List Char)} {raw : List Char}
    {g : GcovLine} (hraw : raw ∈ report) (h : parseGcovLine raw = some g) :
    g ∈ parseGcovReport report :=
  List.mem_filterMap.mpr ⟨raw, hraw, h⟩

/-! ## Claim theorem for the gcov parser -/

/-- Claim C8: in a gcov-style report (one entry per source line, so parsed
line numbers are distinct), a `#####`, `=====` or `*`-run marker line is
executable and not-executed but not executed; a `-` marker line is in
neither the executed nor the executable set; a positive decimal count line
is in both; a matched line numbered 0 is discarded; and a line that does
not match the marker grammar is silently skipped. -/
theorem gcov_marker_classification (report : List (List Char))
    (hnd : ((parseGcovReport report).map GcovLine.line_number).Nodup) :
    (∀ raw ∈ report, ∀ m n src, matchLine raw = some (m, n, src) → n ≠ 0 →
      ((m = Marker.hashes ∨ m = Marker.equals ∨ (∃ k, m = Marker.stars k)) →
        n ∈ get_executable_lines report ∧ n ∈ get_not_executed_lines report ∧
          n ∉ get_executed_lines report)
      ∧ (m = Marker.dash →
        n ∉ get_executed_lines report ∧ n ∉ get_executable_lines report)
      ∧ (∀ k, m = Marker.count k → 0 < k →
        n ∈ get_executed_lines report ∧ n ∈ get_executable_lines report))
    ∧ (∀ raw : List Char, ∀ m src, matchLine raw = some (m, 0, src) →
      parseGcovLine raw = none)
    ∧ (∀ raw : List Char, matchLine raw = none → parseGcovLine raw = none) := by
  refine ⟨?_, ?_, ?_⟩
  · intro raw hraw m n src hmatch hn
    have hparse := parseGcovLine_of_matchLine hmatch hn
    set g : GcovLine := ⟨n, (markerClass m).1, src, (markerClass m).2⟩ with hg
    have hmem : g ∈ parseGcovReport report := mem_parseGcovReport hraw hparse
    have hinj : ∀ g' ∈ parseGcovReport report, g'.line_number = n → g' = g := by
      intro g' hg' hline
      exact List.inj_on_of_nodup_map hnd hg' hmem (by rw [hline])
    refine ⟨?_, ?_, ?_⟩
    · intro hm
      have hclass : (markerClass m).1 = some 0 ∧ (markerClass m).2 = true := by
        rcases hm with rfl | rfl | ⟨k, rfl⟩ <;> exact ⟨rfl, rfl⟩
      have hexec : g.is_executable = true := hclass.2
      have hnotrun : g.was_executed = false := by
        rw [GcovLine.was_executed]
        show (match (markerClass m).1 with
          | some n => decide (0 < n)
          | none => false) = false
        rw [hclass.1]
        rfl
      refine ⟨?_, ?_, ?_⟩
      · rw [get_executable_lines, List.mem_toFinset, List.mem_map]
        exact ⟨g, List.mem_filter.mpr ⟨hmem, hexec⟩, rfl⟩
      · rw [get_not_executed_lines, List.mem_toFinset, List.mem_map]
        exact ⟨g, List.mem_filter.mpr ⟨hmem, by rw [hexec, hnotrun]; rfl⟩, rfl⟩
      · rw [get_executed_lines, List.mem_toFinset, List.mem_map]
        rintro ⟨g', hg', hline⟩
        have hg'mem := (List.mem_filter.mp hg').1
        have hg'run := (List.mem_filter.mp hg').2
        rw [hinj g' hg'mem hline] at hg'run
        rw [hnotrun] at hg'run
        exact Bool.false_ne_true hg'run
    · rintro rfl
      have hexec : g.is_executable = false := rfl
      have hnotrun : g.was_executed = false := rfl
      constructor
      · rw [get_executed_lines, List.mem_toFinset, List.mem_map]
        rintro ⟨g', hg', hline⟩
        have hg'mem := (List.mem_filter.mp hg').1
        have hg'run := (List.mem_filter.mp hg').2
        rw [hinj g' hg'mem hline, hnotrun] at hg'run
        exact Bool.false_ne_true hg'run
      · rw [get_executable_lines, List.mem_toFinset, List.mem_map]
        rintro ⟨g', hg', hline⟩
        have hg'mem := (List.mem_filter.mp hg').1
        have hg'exec := (List.mem_filter.mp hg').2
        rw [hinj g' hg'mem hline, hexec] at hg'exec
        exact Bool.false_ne_true hg'exec
    · rintro k rfl hk
      have hexec : g.is_executable = true := rfl
      have hrun : g.was_executed = true := by
        rw [GcovLine.was_executed]
        show (match (some k : Option Nat) with
          | some n => decide (0 < n)
          | none => false) = true
        simpa using hk
      constructor
      · rw [get_executed_lines, List.mem_toFinset, List.mem_map]
        exact ⟨g, List.mem_filter.mpr ⟨hmem, hrun⟩, rfl⟩
      · rw [get_executable_lines, List.mem_toFinset, List.mem_map]
        exact ⟨g, List.mem_filter.mpr ⟨hmem, hexec⟩, rfl⟩
  · intro raw m src hmatch
    rw [parseGcovLine, hmatch]
    simp
  · intro raw hmatch
    rw [parseGcovLine, hmatch]

/-- Witness for C8 over a concrete five-line report plus a discarded
header line and a skipped malformed line. -/
theorem gcov_marker_classification_witness :
    (10 ∈ get_executable_lines
        ["    #####:   10:x++;".toList, "        -:   11:".toList,
          "        5:   12:y++;".toList]
      ∧ 10 ∈ get_not_executed_lines
        ["    #####:   10:x++;".toList, "        -:   11:".toList,
          "        5:   12:y++;".toList]
      ∧ 10 ∉ get_executed_lines
        ["    #####:   10:x++;".toList, "        -:   11:".toList,
          "        5:   12:y++;".toList])
    ∧ (11 ∉ get_executed_lines
        ["    #####:   10:x++;".toList, "        -:   11:".toList,
          "        5:   12:y++;".toList]
      ∧ 11 ∉ get_executable_lines
        ["    #####:   10:x++;".toList, "        -:   11:".toList,
          "        5:   12:y++;".toList])
    ∧ (12 ∈ get_executed_lines
        ["    #####:   10:x++;".toList, "        -:   11:".toList,
          "        5:   12:y++;".toList]
      ∧ 12 ∈ get_executable_lines
        ["    #####:   10:x++;".toList, "        -:   11:".toList,
          "        5:   12:y++;".toList])
    ∧ parseGcovLine "       12:    0:Source:main.c".toList = none
    ∧ parseGcovLine "no marker here".toList = none := by
  have h := gcov_marker_classification
    ["    #####:   10:x++;".toList, "        -:   11:".toList,
      "        5:   12:y++;".toList] (by decide)
  refine ⟨?_, ?_, ?_, ?_, ?_⟩
  · exact (h.1 "    #####:   10:x++;".toList (by decide) Marker.hashes 10
      "x++;".toList (by decide) (by decide)).1 (Or.inl rfl)
  · exact (h.1 "        -:   11:".toList (by decide) Marker.dash 11
      [] (by decide) (by decide)).2.1 rfl
  · exact (h.1 "        5:   12:y++;".toList (by decide) (Marker.count 5) 12
      "y++;".toList (by decide) (by decide)).2.2 5 rfl (by decide)
  · exact h.2.1 "       12:    0:Source:main.c".toList (Marker.count 12)
      "Source:main.c".toList (by decide)
  · exact h.2.2 "no marker here".toList (by decide)

/-! ## Helper lemmas for the ranking -/

theorem scoreKeyLEb_iff (a b : SuspiciousnessScore) :
    scoreKeyLEb a b = true ↔ scoreKeyLE a b := by
  simp [scoreKeyLEb]

theorem scoreKeyLEb_total (a b : SuspiciousnessScore) :
    (scoreKeyLEb a b || scoreKeyLEb b a) = true := by
  rw [Bool.or_eq_true, scoreKeyLEb_iff, scoreKeyLEb_iff]
  rcases lt_trichotomy a.score b.score with h | h | h
  · exact Or.inr (Or.inl h)
  · rcases le_total a.line b.line with hl | hl
    · exact Or.inl (Or.inr ⟨h, hl⟩)
    · exact Or.inr (Or.inr ⟨h.symm, hl⟩)
  · exact Or.inl (Or.inl h)

theorem scoreKeyLEb_trans (a b c : SuspiciousnessScore)
    (h1 : scoreKeyLEb a b = true) (h2 : scoreKeyLEb b c = true) :
    scoreKeyLEb a c = true := by
  rw [scoreKeyLEb_iff] at h1 h2 ⊢
  rcases h1 with h1 | ⟨he1, hl1⟩
  · rcases h2 with h2 | ⟨he2, hl2⟩
    · exact Or.inl (h2.trans h1)
    · exact Or.inl (he2 ▸ h1)
  · rcases h2 with h2 | ⟨he2, hl2⟩
    · exact Or.inl (he1 ▸ h2)
    · exact Or.inr ⟨he1.trans he2, hl1.trans hl2⟩

theorem rank_lines_sorted_desc (L : SBFLLocalizer) (t : Option Nat) :
    (L.rank_lines t).Pairwise
      (fun a b => b.score ≤ a.score ∧ (a.score = b.score → a.line ≤ b.line)) := by
  have hsorted : (L.compute_all_scores.mergeSort scoreKeyLEb).Pairwise
      (fun a b => scoreKeyLEb a b = true) :=
    List.sorted_mergeSort scoreKeyLEb_trans scoreKeyLEb_total L.compute_all_scores
  have himp : ∀ {a b : SuspiciousnessScore}, scoreKeyLEb a b = true →
      b.score ≤ a.score ∧ (a.score = b.score → a.line ≤ b.line) := by
    intro a b h
    rcases (scoreKeyLEb_iff a b).mp h with h | ⟨he, hl⟩
    · exact ⟨le_of_lt h, fun he => absurd (he ▸ h) (lt_irrefl _)⟩
    · exact ⟨le_of_eq he.symm, fun _ => hl⟩
  have hnone : (L.rank_lines none).Pairwise
      (fun a b => b.score ≤ a.score ∧ (a.score = b.score → a.line ≤ b.line)) :=
    hsorted.imp himp
  match t with
  | none => exact hnone
  | some m => exact List.Pairwise.sublist (List.take_sublist m _) hnone

theorem takeWhile_take_comm {α : Type} (p : α → Bool) (l : List α) (n : Nat) :
    (l.take n).takeWhile p = (l.takeWhile p).take n := by
  induction l generalizing n with
  | nil => simp
  | cons a tl ih =>
    cases n with
    | zero => simp
    | succ m =>
      rw [List.take_succ_cons, List.takeWhile_cons, List.takeWhile_cons]
      by_cases hp : p a
      · simp [hp, ih]
      · simp [hp]

theorem filter_thresh_eq_takeWhile (t : ℝ) (l : List SuspiciousnessScore)
    (hl : l.Pairwise (fun a b => b.score ≤ a.score)) :
    l.filter (fun s => decide (((t : ℝ) : WithTop ℝ) ≤ s.score)) =
      l.takeWhile (fun s => decide (((t : ℝ) : WithTop ℝ) ≤ s.score)) := by
  induction l with
  | nil => simp
  | cons a tl ih =>
    rw [List.pairwise_cons] at hl
    rw [List.filter_cons, List.takeWhile_cons]
    by_cases hpa : ((t : ℝ) : WithTop ℝ) ≤ a.score
    · rw [if_pos (by simpa using hpa), if_pos (by simpa using hpa), ih hl.2]
    · rw [if_neg (by simpa using hpa), if_neg (by simpa using hpa)]
      apply List.filter_eq_nil_iff.mpr
      intro b hb
      simp only [decide_eq_true_eq]
      exact fun hbt => hpa (le_trans hbt (hl.1 b hb))

theorem get_suspicious_lines_length (L : SBFLLocalizer) (t : ℝ) (n : Nat) :
    (L.get_suspicious_lines t (some n)).length =
      min n (((L.rank_lines none).filter
        (fun s => decide (((t : ℝ) : WithTop ℝ) ≤ s.score))).length) := by
  have hdesc : (L.rank_lines none).Pairwise (fun a b => b.score ≤ a.score) :=
    (rank_lines_sorted_desc L none).imp (fun h => h.1)
  have hdesc' : ((L.rank_lines none).take n).Pairwise (fun a b => b.score ≤ a.score) :=
    List.Pairwise.sublist (List.take_sublist n _) hdesc
  have hsome : L.rank_lines (some n) = (L.rank_lines none).take n := rfl
  rw [SBFLLocalizer.get_suspicious_lines, List.length_map, hsome,
    filter_thresh_eq_takeWhile t _ hdesc', takeWhile_take_comm,
    ← filter_thresh_eq_takeWhile t _ hdesc, List.length_take]

/-! ## Claim theorems for the ranking -/

/-- Claim C1: `rank_lines` scores every line of the union of the covered
sets (its output is a permutation of the scored union), its output is
sorted by non-increasing score with equal scores ordered by ascending line
number, and `top_n` truncates the sorted list to its first `top_n`
entries. -/
theorem rank_lines_spec (L : SBFLLocalizer) (t : Option Nat) (n : Nat) :
    (L.rank_lines none).Perm (L.matrix.all_lines.map L.mkScore)
    ∧ (L.rank_lines t).Pairwise
        (fun a b => b.score ≤ a.score ∧ (a.score = b.score → a.line ≤ b.line))
    ∧ L.rank_lines (some n) = (L.rank_lines none).take n :=
  ⟨List.mergeSort_perm L.compute_all_scores scoreKeyLEb,
    rank_lines_sorted_desc L t, rfl⟩

/-- Claim C10 (amended): `get_suspicious_lines(t, n)` equals
`rank_lines(n)` filtered to entries with score at least `t`; because the
ranking is sorted by non-increasing score this coincides with truncating
the threshold-filtered full ranking, so its length is
`min n (number of qualifying lines)` — it can never return fewer than `n`
qualifying lines while more than `n` exist. -/
theorem get_suspicious_lines_spec (L : SBFLLocalizer) (t : ℝ) (n : Nat) :
    L.get_suspicious_lines t (some n) =
      ((L.rank_lines (some n)).filter
        (fun s => decide (((t : ℝ) : WithTop ℝ) ≤ s.score))).map
        (fun s => (s.line, s.score, s.source_text))
    ∧ L.get_suspicious_lines t (some n) =
      (((L.rank_lines none).filter
        (fun s => decide (((t : ℝ) : WithTop ℝ) ≤ s.score))).take n).map
        (fun s => (s.line, s.score, s.source_text))
    ∧ (L.get_suspicious_lines t (some n)).length =
      min n (((L.rank_lines none).filter
        (fun s => decide (((t : ℝ) : WithTop ℝ) ≤ s.score))).length) := by
  have hdesc : (L.rank_lines none).Pairwise (fun a b => b.score ≤ a.score) :=
    (rank_lines_sorted_desc L none).imp (fun h => h.1)
  have hdesc' : ((L.rank_lines none).take n).Pairwise (fun a b => b.score ≤ a.score) :=
    List.Pairwise.sublist (List.take_sublist n _) hdesc
  have hsome : L.rank_lines (some n) = (L.rank_lines none).take n := rfl
  refine ⟨rfl, ?_, get_suspicious_lines_length L t n⟩
  rw [SBFLLocalizer.get_suspicious_lines, hsome,
    filter_thresh_eq_takeWhile t _ hdesc', takeWhile_take_comm,
    ← filter_thresh_eq_takeWhile t _ hdesc]

/-- Counterexample for C10 as stated: it is impossible for
`get_suspicious_lines(t, n)` to return fewer than `n` lines with score at
least `t` while more than `n` such lines exist in the full ranking. -/
theorem get_suspicious_lines_no_shortfall :
    ¬ ∃ (L : SBFLLocalizer) (t : ℝ) (n : Nat),
      n < ((L.rank_lines none).filter
        (fun s => decide (((t : ℝ) : WithTop ℝ) ≤ s.score))).length
      ∧ (L.get_suspicious_lines t (some n)).length < n := by
  rintro ⟨L, t, n, hk, hl⟩
  rw [get_suspicious_lines_length] at hl
  omega

/-! ## Helper lemmas for the binary codec -/

theorem readLE_congr (f g : Nat → Nat) (k : Nat) (h : ∀ j < k, f j = g j) :
    readLE f k = readLE g k := by
  induction k generalizing f g with
  | zero => rfl
  | succ m ih =>
    rw [readLE, readLE, h 0 (Nat.succ_pos m),
      ih (fun j => f (j + 1)) (fun j => g (j + 1)) (fun j hj => h (j + 1) (by omega))]

theorem byteOf_succ (n j : Nat) : byteOf n (j + 1) = byteOf (n / 256) j := by
  unfold byteOf
  rw [Nat.div_div_eq_div_mul, pow_succ, Nat.mul_comm]

theorem readLE_byteOf (k : Nat) :
    ∀ (n : Nat) (f : Nat → Nat), (∀ j < k, f j = byteOf n j) →
      readLE f k = n % 256 ^ k := by
  induction k with
  | zero =>
    intro n f _
    simp [readLE, Nat.mod_one]
  | succ m ih =>
    intro n f h
    rw [readLE, h 0 (Nat.succ_pos m)]
    have h0 : byteOf n 0 % 256 = n % 256 := by
      simp [byteOf, Nat.mod_mod_of_dvd]
    have hshift : ∀ j < m, f (j + 1) = byteOf (n / 256) j := by
      intro j hj
      rw [h (j + 1) (by omega), byteOf_succ]
    rw [h0, ih (n / 256) (fun j => f (j + 1)) hshift]
    rw [show (256 : Nat) ^ (m + 1) = 256 * 256 ^ m by rw [pow_succ, Nat.mul_comm],
      Nat.mod_mul]

theorem readLE_byteOf_lt (k n : Nat) (f : Nat → Nat)
    (h : ∀ j < k, f j = byteOf n j) (hn : n < 256 ^ k) : readLE f k = n := by
  rw [readLE_byteOf k n f h, Nat.mod_eq_of_lt hn]

theorem intEnc32_lt (z : Int) : intEnc32 z < 2 ^ 32 := by
  have e32 : (2 : Int) ^ 32 = 4294967296 := by norm_num
  have en : (2 : Nat) ^ 32 = 4294967296 := by norm_num
  unfold intEnc32
  rw [e32, en]
  omega

theorem toSigned32_intEnc32 (z : Int) (h1 : -(2 ^ 31) ≤ z) (h2 : z < 2 ^ 31) :
    toSigned32 (intEnc32 z) = z := by
  have e32 : (2 : Int) ^ 32 = 4294967296 := by norm_num
  have e31 : (2 : Int) ^ 31 = 2147483648 := by norm_num
  have en31 : (2 : Nat) ^ 31 = 2147483648 := by norm_num
  unfold toSigned32 intEnc32
  rw [e32, e31] at *
  rw [en31]
  split <;> rename_i hsplit <;> omega

/-- The byte function packed by `packVote`, exposed for rewriting. -/
theorem packVote_byteAt (w : VoteWire) (i : Nat) :
    (packVote w).byteAt i =
      (if i < 4 then byteOf (intEnc32 w.idx) i
      else if i < 8 then 0
      else if i < 16 then byteOf w.positions_length (i - 8)
      else if i < 816 then byteOf (w.positions.getD ((i - 16) / 8) 0) ((i - 16) % 8)
      else if i < 824 then byteOf w.velocities_length (i - 816)
      else if i < 1624 then byteOf (w.velocities.getD ((i - 824) / 8) 0) ((i - 824) % 8)
      else if i < 1632 then byteOf w.accelerations_length (i - 1624)
      else if i < 2432 then byteOf (w.accelerations.getD ((i - 1632) / 8) 0) ((i - 1632) % 8)
      else if i < 2440 then byteOf w.effort_length (i - 2432)
      else if i < 3240 then byteOf (w.effort.getD ((i - 2440) / 8) 0) ((i - 2440) % 8)
      else if i < 3244 then byteOf (intEnc32 w.time_from_start_sec) (i - 3240)
      else if i < 3248 then byteOf w.time_from_start_nsec (i - 3244)
      else 0) := rfl

theorem parse_vote_congr (b b' : ByteBuf) (hb : VOTE_SIZE ≤ b.size)
    (hb' : VOTE_SIZE ≤ b'.size) (hag : ∀ i < VOTE_SIZE, b.byteAt i = b'.byteAt i) :
    parse_vote b = parse_vote b' := by
  have hv : VOTE_SIZE = 3248 := by norm_num [VOTE_SIZE, POINT_SIZE]
  rw [hv] at hb hb' hag
  have hidx : b.readLEat 0 4 = b'.readLEat 0 4 :=
    readLE_congr _ _ 4 (fun j hj => hag (0 + j) (by omega))
  have hpos : (List.range 100).map (fun l => b.readLEat (16 + 8 * l) 8) =
      (List.range 100).map (fun l => b'.readLEat (16 + 8 * l) 8) := by
    apply List.map_congr_left
    intro l hl
    have hl100 : l < 100 := List.mem_range.mp hl
    exact readLE_congr _ _ 8 (fun j hj => hag (16 + 8 * l + j) (by omega))
  have hvel : (List.range 100).map (fun l => b.readLEat (824 + 8 * l) 8) =
      (List.range 100).map (fun l => b'.readLEat (824 + 8 * l) 8) := by
    apply List.map_congr_left
    intro l hl
    have hl100 : l < 100 := List.mem_range.mp hl
    exact readLE_congr _ _ 8 (fun j hj => hag (824 + 8 * l + j) (by omega))
  rw [parse_vote, parse_vote, if_neg (by omega), if_neg (by omega), hidx, hpos, hvel]

theorem parse_vote_packVote (w : VoteWire)
    (hplen : w.positions.length = 100) (hvlen : w.velocities.length = 100)
    (hpb : ∀ x ∈ w.positions, x < 2 ^ 64) (hvb : ∀ x ∈ w.velocities, x < 2 ^ 64)
    (h1 : -(2 ^ 31) ≤ w.idx) (h2 : w.idx < 2 ^ 31) :
    parse_vote (packVote w) = some ⟨w.idx, w.positions, w.velocities⟩ := by
  have hsize : (packVote w).size = VOTE_SIZE := rfl
  have hv : VOTE_SIZE = 3248 := by norm_num [VOTE_SIZE, POINT_SIZE]
  have hidx : toSigned32 ((packVote w).readLEat 0 4) = w.idx := by
    have hread : (packVote w).readLEat 0 4 = intEnc32 w.idx := by
      apply readLE_byteOf_lt 4 (intEnc32 w.idx)
      · intro j hj
        rw [show (0 + j) = j from by omega, packVote_byteAt, if_pos (by omega)]
      · calc intEnc32 w.idx < 2 ^ 32 := intEnc32_lt _
          _ ≤ 256 ^ 4 := by norm_num
    rw [hread]
    exact toSigned32_intEnc32 _ h1 h2
  have hpos : (List.range 100).map (fun l => (packVote w).readLEat (16 + 8 * l) 8) =
      w.positions := by
    apply List.ext_getElem
    · simp [hplen]
    · intro l hl1 hl2
      simp only [List.getElem_map, List.getElem_range]
      have hl100 : l < 100 := by simpa using hl1
      apply readLE_byteOf_lt 8 (w.positions[l])
      · intro j hj
        rw [packVote_byteAt, if_neg (by omega), if_neg (by omega), if_neg (by omega),
          if_pos (by omega)]
        rw [show (16 + 8 * l + j - 16) / 8 = l from by omega,
          show (16 + 8 * l + j - 16) % 8 = j from by omega,
          List.getD_eq_getElem w.positions 0 (by omega : l < w.positions.length)]
      · calc w.positions[l] < 2 ^ 64 := hpb _ (List.getElem_mem _)
          _ = 256 ^ 8 := by norm_num
  have hvel : (List.range 100).map (fun l => (packVote w).readLEat (824 + 8 * l) 8) =
      w.velocities := by
    apply List.ext_getElem
    · simp [hvlen]
    · intro l hl1 hl2
      simp only [List.getElem_map, List.getElem_range]
      have hl100 : l < 100 := by simpa using hl1
      apply readLE_byteOf_lt 8 (w.velocities[l])
      · intro j hj
        rw [packVote_byteAt, if_neg (by omega), if_neg (by omega), if_neg (by omega),
          if_neg (by omega), if_neg (by omega), if_pos (by omega)]
        rw [show (824 + 8 * l + j - 824) / 8 = l from by omega,
          show (824 + 8 * l + j - 824) % 8 = j from by omega,
          List.getD_eq_getElem w.velocities 0 (by omega : l < w.velocities.length)]
      · calc w.velocities[l] < 2 ^ 64 := hvb _ (List.getElem_mem _)
          _ = 256 ^ 8 := by norm_num
  rw [parse_vote, if_neg (by omega), hidx, hpos, hvel]

/-! ## Claim theorem for the Vote layout -/

/-- Claim C3: a Vote occupies exactly 3248 bytes (4-byte index, 4 pad
bytes, 3240-byte point); `parse_vote` consumes exactly the first 3248
bytes of its input (its result depends on nothing else, given enough
bytes); and parsing a buffer packed in this layout recovers the index and
all 100 position and velocity slots bit for bit. -/
theorem vote_layout_spec :
    (VOTE_SIZE = 3248 ∧ VOTE_SIZE = 4 + 4 + POINT_SIZE ∧ POINT_SIZE = 3240)
    ∧ (∀ b b' : ByteBuf, VOTE_SIZE ≤ b.size → VOTE_SIZE ≤ b'.size →
      (∀ i < VOTE_SIZE, b.byteAt i = b'.byteAt i) → parse_vote b = parse_vote b')
    ∧ (∀ w : VoteWire,
      w.positions.length = 100 → w.velocities.length = 100 →
      (∀ x ∈ w.positions, x < 2 ^ 64) → (∀ x ∈ w.velocities, x < 2 ^ 64) →
      -(2 ^ 31) ≤ w.idx → w.idx < 2 ^ 31 →
      parse_vote (packVote w) = some ⟨w.idx, w.positions, w.velocities⟩) :=
  ⟨⟨by norm_num [VOTE_SIZE, POINT_SIZE], rfl, by norm_num [POINT_SIZE]⟩,
    parse_vote_congr, parse_vote_packVote⟩

/-- Witness for C3: the round trip at a concrete fully populated vote. -/
theorem vote_layout_spec_witness :
    VOTE_SIZE = 3248
    ∧ parse_vote (packVote
        ⟨5, 100, List.replicate 100 3, 100, List.replicate 100 4,
          100, List.replicate 100 0, 100, List.replicate 100 0, 0, 0⟩) =
      some ⟨5, List.replicate 100 3, List.replicate 100 4⟩ := by
  refine ⟨vote_layout_spec.1.1, vote_layout_spec.2.2 _ ?_ ?_ ?_ ?_ ?_ ?_⟩
  · simp
  · simp
  · intro x hx
    rw [(List.eq_of_mem_replicate hx : x = 3)]
    norm_num
  · intro x hx
    rw [(List.eq_of_mem_replicate hx : x = 4)]
    norm_num
  · norm_num
  · norm_num

/-! ## Helper lemmas for parse_state -/

theorem parsePoint_fields (b : ByteBuf) (off : Nat) (h : off + POINT_SIZE ≤ b.size) :
    ∃ pt, parsePoint b off = some pt
      ∧ pt.positions_length = b.readLEat off 8
      ∧ pt.positions.length = min pt.positions_length 100
      ∧ pt.velocities_length = b.readLEat (off + 808) 8
      ∧ pt.velocities.length = min pt.velocities_length 100
      ∧ pt.accelerations_length = b.readLEat (off + 1616) 8
      ∧ pt.accelerations.length = min pt.accelerations_length 100
      ∧ pt.effort_length = b.readLEat (off + 2424) 8
      ∧ pt.effort.length = min pt.effort_length 100 := by
  refine ⟨⟨b.readLEat off 8,
      ((List.range 100).map (fun l => b.readLEat (off + 8 + 8 * l) 8)).take
        (min (b.readLEat off 8) 100),
      b.readLEat (off + 808) 8,
      ((List.range 100).map (fun l => b.readLEat (off + 816 + 8 * l) 8)).take
        (min (b.readLEat (off + 808) 8) 100),
      b.readLEat (off + 1616) 8,
      ((List.range 100).map (fun l => b.readLEat (off + 1624 + 8 * l) 8)).take
        (min (b.readLEat (off + 1616) 8) 100),
      b.readLEat (off + 2424) 8,
      ((List.range 100).map (fun l => b.readLEat (off + 2432 + 8 * l) 8)).take
        (min (b.readLEat (off + 2424) 8) 100),
      toSigned32 (b.readLEat (off + 3232) 4),
      b.readLEat (off + 3236) 4⟩, ?_, rfl, ?_, rfl, ?_, rfl, ?_, rfl, ?_⟩
  · rw [parsePoint, if_pos h]
  all_goals
    dsimp only
    rw [List.length_take, List.length_map, List.length_range]
    omega

theorem parsePointsFrom_length (b : ByteBuf) :
    ∀ (count p : Nat), 2584 + (p + count) * POINT_SIZE ≤ b.size →
      ∃ l, parsePointsFrom b p count = some l ∧ l.length = count := by
  intro count
  induction count with
  | zero => exact fun p _ => ⟨[], rfl, rfl⟩
  | succ m ih =>
    intro p h
    have hP : POINT_SIZE = 3240 := by norm_num [POINT_SIZE]
    have hps : 2584 + p * POINT_SIZE + POINT_SIZE ≤ b.size := by
      rw [hP] at h ⊢
      omega
    obtain ⟨rest, hrest, hlen⟩ := ih (p + 1) (by rw [hP] at h ⊢; omega)
    obtain ⟨pt, hpt, _⟩ := parsePoint_fields b (2584 + p * POINT_SIZE) hps
    refine ⟨pt :: rest, ?_, by simp [hlen]⟩
    rw [parsePointsFrom, hpt, hrest]
    rfl

theorem parse_state_none (b : ByteBuf) (h : b.size < STATE_REQUIRED_SIZE) :
    parse_state b = none := by
  have hreq : STATE_REQUIRED_SIZE = 832028 := by
    norm_num [STATE_REQUIRED_SIZE, POINT_SIZE]
  have hP : POINT_SIZE = 3240 := by norm_num [POINT_SIZE]
  have hlast : unpackFromU b (2584 + 256 * POINT_SIZE) 4 = none := by
    rw [unpackFromU, if_neg]
    rw [hP]
    omega
  cases h1 : unpackFromU b 0 4 with
  | none => simp [parse_state, h1]
  | some v1 =>
    cases h2 : unpackFromU b 8 8 with
    | none => simp [parse_state, h1, h2]
    | some v2 =>
      cases h3 : unpackFromU b 2576 8 with
      | none => simp [parse_state, h1, h2, h3]
      | some v3 =>
        cases h4 : parsePointsFrom b 0 (min v3 256) with
        | none => simp [parse_state, h1, h2, h3, h4]
        | some pts => simp [parse_state, h1, h2, h3, h4, hlast]

theorem parse_state_some (b : ByteBuf) (h : STATE_REQUIRED_SIZE ≤ b.size) :
    ∃ st, parse_state b = some st
      ∧ st.points_length = b.readLEat 2576 8
      ∧ st.points.length = min st.points_length 256 := by
  have hreq : STATE_REQUIRED_SIZE = 832028 := by
    norm_num [STATE_REQUIRED_SIZE, POINT_SIZE]
  have hP : POINT_SIZE = 3240 := by norm_num [POINT_SIZE]
  rw [hreq] at h
  have h1 : unpackFromU b 0 4 = some (b.readLEat 0 4) := by
    rw [unpackFromU, if_pos (by omega)]
  have h2 : unpackFromU b 8 8 = some (b.readLEat 8 8) := by
    rw [unpackFromU, if_pos (by omega)]
  have h3 : unpackFromU b 2576 8 = some (b.readLEat 2576 8) := by
    rw [unpackFromU, if_pos (by omega)]
  have hmin : min (b.readLEat 2576 8) 256 ≤ 256 := Nat.min_le_right _ _
  obtain ⟨pts, hpts, hlen⟩ := parsePointsFrom_length b (min (b.readLEat 2576 8) 256) 0
    (by rw [hP]; omega)
  have h5 : unpackFromU b (2584 + 256 * POINT_SIZE) 4 =
      some (b.readLEat (2584 + 256 * POINT_SIZE) 4) := by
    rw [unpackFromU, if_pos (by rw [hP]; omega)]
  refine ⟨⟨toSigned32 (b.readLEat 0 4),
      toSigned32 (b.readLEat (2584 + 256 * POINT_SIZE) 4),
      ((List.range 10).map (jointNameBytes b)).filter (fun nm => nm ≠ []),
      b.readLEat 2576 8, pts⟩, ?_, rfl, ?_⟩
  · simp [parse_state, h1, h2, h3, hpts, h5]
  · simpa using hlen

/-! ## Claim theorem for parse_state -/

/-- Claim C4: decoding a `State` fails on a buffer shorter than the
required size, but an oversized logical length never aborts the decode:
`parse_state` clamps a declared `points_length` above 256 to 256 parsed
points, and each per-point array with declared length above 100 yields
exactly 100 elements (so the short-buffer error and the over-length
condition are distinguishable — the latter succeeds). -/
theorem state_decode_spec :
    (∀ b : ByteBuf, b.size < STATE_REQUIRED_SIZE → parse_state b = none)
    ∧ (∀ b : ByteBuf, STATE_REQUIRED_SIZE ≤ b.size →
      ∃ st, parse_state b = some st
        ∧ st.points_length = b.readLEat 2576 8
        ∧ st.points.length = min st.points_length 256)
    ∧ (∀ (b : ByteBuf) (off : Nat), off + POINT_SIZE ≤ b.size →
      ∃ pt, parsePoint b off = some pt
        ∧ pt.positions_length = b.readLEat off 8
        ∧ pt.positions.length = min pt.positions_length 100
        ∧ pt.velocities_length = b.readLEat (off + 808) 8
        ∧ pt.velocities.length = min pt.velocities_length 100
        ∧ pt.accelerations_length = b.readLEat (off + 1616) 8
        ∧ pt.accelerations.length = min pt.accelerations_length 100
        ∧ pt.effort_length = b.readLEat (off + 2424) 8
        ∧ pt.effort.length = min pt.effort_length 100) :=
  ⟨parse_state_none, parse_state_some, parsePoint_fields⟩

/-- Witness for C4: a 10-byte buffer fails to decode; an 832028-byte
buffer declaring 258 points decodes with exactly 256 parsed points; a
3240-byte all-255 point block declares array lengths `2^64 - 1` and
yields exactly 100 elements per array. -/
theorem state_decode_spec_witness :
    parse_state ⟨10, fun _ => 0⟩ = none
    ∧ (∃ st, parse_state
        ⟨832028, fun i => if i = 2576 then 2 else if i = 2577 then 1 else 0⟩ =
          some st ∧ st.points_length = 258 ∧ st.points.length = 256)
    ∧ (∃ pt, parsePoint ⟨3240, fun _ => 255⟩ 0 = some pt
        ∧ pt.positions_length = 18446744073709551615
        ∧ pt.positions.length = 100) := by
  refine ⟨state_decode_spec.1 _ (by decide), ?_, ?_⟩
  · obtain ⟨st, hst, hpl, hlen⟩ := state_decode_spec.2.1
      ⟨832028, fun i => if i = 2576 then 2 else if i = 2577 then 1 else 0⟩ (by decide)
    have hval : (⟨832028, fun i => if i = 2576 then 2 else if i = 2577 then 1 else 0⟩ :
        ByteBuf).readLEat 2576 8 = 258 := by decide
    refine ⟨st, hst, ?_, ?_⟩
    · rw [hpl]
      exact hval
    · rw [hlen, hpl, hval]
      decide
  · obtain ⟨pt, hpt, hplen, hplen2, _⟩ := state_decode_spec.2.2
      ⟨3240, fun _ => 255⟩ 0 (by decide)
    have hval : (⟨3240, fun _ => 255⟩ : ByteBuf).readLEat 0 8 =
        18446744073709551615 := by decide
    refine ⟨pt, hpt, ?_, ?_⟩
    · rw [hplen]
      exact hval
    · rw [hplen2, hplen, hval]
      decide

end AprTool
